import Mathlib

/-!
Verification development for the b5b4-backend library-management service.

The repository is an Express + Mongoose CRUD service for Book and Borrow
documents.  The parts of the code under verification are embedded shallowly:

* src/app/controllers/books.controller.ts (route handlers for books) is
  embedded as pure functions from a store (an association list of books)
  and request data to a list of emitted HTTP responses; the document store
  is modelled as never failing, so the catch branches of the handlers are
  unreachable in the model and are omitted.
* src/app/utils/formatZodError.ts is embedded as a pure function over a
  list of validation issues, with a JavaScript-object-style map
  (insert-or-overwrite keyed by string).
* src/server.ts connectDB is embedded as a state machine whose connect
  attempts succeed or fail according to an explicit oracle.
* The Mongoose model and zod schema files (books.models.ts,
  books.schema.ts, and the borrow controller) are not part of the sources
  available here; where a claim depends on them the definition is modelled
  from the specification and marked so in its doc comment.
-/

/-- Book document, from the IBooks interface in
src/app/interfaces/books.interface.ts: title, author, genre, isbn,
description, copies, available.  Copies is an integer (validated
non-negative by the schema), available a boolean. -/
structure Book where
  title : String
  author : String
  genre : String
  isbn : String
  description : String
  copies : Int
  available : Bool
deriving DecidableEq, Repr

/-- Modelled from the spec: the closed genre set GENRES lives in
src/app/schemas/books.schema.ts, which is not among the available sources.
The spec fixes a closed set of uppercase genre constants; the README
example uses FANTASY.  Modelled as the conventional uppercase set. -/
def GENRES : List String :=
  ["FICTION", "NON_FICTION", "SCIENCE", "HISTORY", "BIOGRAPHY", "FANTASY"]

/-- Modelled from the spec: the static method
updateBookCopiesAndAvailable declared in
src/app/interfaces/books.interface.ts is implemented in
src/app/models/books.models.ts, which is not among the available sources.
Per the spec (section 4.1) it sets the copy count and recomputes the
derived available flag to (copies > 0) on every copies-changing path. -/
def updateBookCopiesAndAvailable (b : Book) (newCopies : Int) : Book :=
  { b with copies := newCopies, available := decide (0 < newCopies) }

/-- Modelled from the spec: the direct administrative update path for
copies (validation in books.schema.ts, not among the available sources):
copies must be a non-negative integer; a negative value fails validation
and performs no mutation; otherwise the availability-recompute contract
is invoked. -/
def adminUpdateCopies (b : Book) (newCopies : Int) : Except String Book :=
  if newCopies < 0 then Except.error "copies must be a non-negative integer"
  else Except.ok (updateBookCopiesAndAvailable b newCopies)

/-- Borrow document: reference to a book by identifier, quantity, due
date (modelled as a timestamp). -/
structure BorrowRecord where
  book : String
  quantity : Int
  dueDate : Nat
deriving DecidableEq, Repr

/-- The persistent state visible to the borrow workflow: books keyed by
identifier, plus the list of borrow records. -/
structure Store where
  books : List (String × Book)
  borrows : List BorrowRecord
deriving DecidableEq, Repr

/-- Outcome of the borrow workflow. -/
inductive BorrowResult where
  | notFound
  | insufficient
  | created (r : BorrowRecord)
deriving DecidableEq, Repr

/-- HTTP status attached to each borrow outcome, per the spec routes:
404 book absent, 400 insufficient stock, 201 created. -/
def borrowStatus : BorrowResult → Nat
  | BorrowResult.notFound => 404
  | BorrowResult.insufficient => 400
  | BorrowResult.created _ => 201

/-- Replace the book stored under key k, leaving other entries alone. -/
def updateAssoc (m : List (String × Book)) (k : String) (v : Book) :
    List (String × Book) :=
  m.map (fun p => if p.1 == k then (k, v) else p)

/-- Modelled from the spec: the borrow workflow lives in
src/app/controllers/borrow.controller.ts, which is not among the
available sources.  Per the spec (section 4.2): look up the book (fail
not-found if absent), reject if the requested quantity exceeds current
copies, otherwise decrement copies through the availability-recompute
contract and persist the new borrow record. -/
def createBorrow (s : Store) (bookId : String) (quantity : Int)
    (dueDate : Nat) : BorrowResult × Store :=
  match List.lookup bookId s.books with
  | none => (BorrowResult.notFound, s)
  | some b =>
    if b.copies < quantity then (BorrowResult.insufficient, s)
    else
      let b' := updateBookCopiesAndAvailable b (b.copies - quantity)
      let rec_ : BorrowRecord := ⟨bookId, quantity, dueDate⟩
      (BorrowResult.created rec_,
        { books := updateAssoc s.books bookId b',
          borrows := s.borrows ++ [rec_] })

/-- One row of the borrowed-books aggregation summary. -/
structure SummaryRow where
  bookId : String
  bookTitle : String
  isbn : String
  totalQuantityBorrowed : Int
deriving DecidableEq, Repr

/-- The distinct book identifiers appearing in the borrow records (the
group keys of the aggregation). -/
def borrowedBookIds (borrows : List BorrowRecord) : List String :=
  (borrows.map (fun r => r.book)).dedup

/-- Sum of quantity over all borrow records referencing the given book. -/
def totalFor (borrows : List BorrowRecord) (id : String) : Int :=
  ((borrows.filter (fun r => r.book == id)).map (fun r => r.quantity)).sum

/-- Modelled from the spec: the aggregation pipeline lives in
src/app/controllers/borrow.controller.ts, which is not among the
available sources.  Per the spec (section 4.3): group the borrow records
by book, sum the quantities, and inner-join with the book metadata, so a
book with no borrow records produces no row. -/
def borrowSummary (books : List (String × Book))
    (borrows : List BorrowRecord) : List SummaryRow :=
  (borrowedBookIds borrows).filterMap fun id =>
    (List.lookup id books).map fun b =>
      ⟨id, b.title, b.isbn, totalFor borrows id⟩

/-- One JSON response emitted through res.status(...).json(...). -/
structure Resp where
  status : Nat
  success : Bool
  message : String
  data : Option Book
deriving DecidableEq, Repr

/-- Modelled from the spec: bookParamsSchema lives in
src/app/schemas/books.schema.ts, which is not among the available
sources.  The spec requires bookId to be a well-formed document
identifier; modelled as a 24-character hexadecimal MongoDB ObjectId. -/
def isValidObjectId (s : String) : Bool :=
  s.length == 24 &&
    s.toList.all fun c =>
      c.isDigit || (97 ≤ c.toNat && c.toNat ≤ 102) ||
        (65 ≤ c.toNat && c.toNat ≤ 70)

/-- The body of the GET /:bookId handler after params validation, from
src/app/controllers/books.controller.ts: find the book by id; if it is
absent, send a 404 Book-not-found response; then (the source has no
return statement after the 404) unconditionally send the 200 response
whose data field is the lookup result (null when the book is absent). -/
def getBookByIdCore (db : List (String × Book)) (bookId : String) :
    List Resp :=
  let book := List.lookup bookId db
  (if book.isNone then [⟨404, false, "Book not found", none⟩] else []) ++
    [⟨200, true, "Book retrieved successfully", book⟩]

/-- The full GET /:bookId handler: params validation first (a failure
responds 400 and returns before any store access), then the core body.
The second component counts how many store lookups were performed. -/
def getBookById (db : List (String × Book)) (bookId : String) :
    List Resp × Nat :=
  if isValidObjectId bookId then (getBookByIdCore db bookId, 1)
  else ([⟨400, false, "Validation failed", none⟩], 0)

/-- Parsed query of GET /api/books, from IReqQuery plus the page
parameter used by the controller; limit defaults to 10 and page to 1 in
the destructuring of the controller. -/
structure ListQuery where
  filter : Option String
  sortBy : Option String
  sort : String
  limit : Nat
  page : Nat
deriving DecidableEq, Repr

/-- Pagination metadata returned by GET /api/books. -/
structure Pagination where
  currentPage : Nat
  totalPages : Nat
  totalBooks : Nat
  limit : Nat
  hasNextPage : Bool
  hasPrevPage : Bool
deriving DecidableEq, Repr

/-- The sort key of a book under a sortBy field name, as a string (the
store compares stored field values; the model compares their string
forms, which is enough for the claims, which only use that sorting
permutes the list). -/
def bookFieldStr (b : Book) (f : String) : String :=
  if f == "title" then b.title
  else if f == "author" then b.author
  else if f == "genre" then b.genre
  else if f == "isbn" then b.isbn
  else if f == "description" then b.description
  else if f == "copies" then toString b.copies
  else if f == "available" then toString b.available
  else ""

/-- Lexicographic comparison of character lists, the order the store
applies to string-valued sort keys, written so that concrete inputs
evaluate inside proofs. -/
def charListLe : List Char → List Char → Bool
  | [], _ => true
  | _ :: _, [] => false
  | a :: as, b :: bs =>
    if a < b then true else if b < a then false else charListLe as bs

/-- Lexicographic comparison of strings through their character lists. -/
def strLe (a b : String) : Bool :=
  charListLe a.data b.data

/-- The sort stage of the listing query: no sortBy leaves the natural
order; otherwise sort by the named field, descending when sort is
"desc" and ascending otherwise. -/
def sortBooks (sortBy : Option String) (sortDir : String)
    (l : List Book) : List Book :=
  match sortBy with
  | none => l
  | some f =>
    if sortDir == "desc" then
      l.insertionSort fun a b =>
        strLe (bookFieldStr b f) (bookFieldStr a f) = true
    else
      l.insertionSort fun a b =>
        strLe (bookFieldStr a f) (bookFieldStr b f) = true

/-- JavaScript String.prototype.toUpperCase, written over the character
list of the string so that concrete inputs evaluate inside proofs. -/
def upperStr (s : String) : String :=
  String.mk (s.data.map Char.toUpper)

/-- The filter stage of the listing query, from the controller: when a
genre filter is present the query matches books whose genre equals the
upper-cased filter value; otherwise everything matches. -/
def matchingBooks (db : List Book) (filter : Option String) :
    List Book :=
  match filter with
  | some f => db.filter fun b => b.genre == upperStr f
  | none => db

/-- The parametered branch of the GET /api/books handler, from
src/app/controllers/books.controller.ts: filter by upper-cased genre,
count the matching records, compute totalPages as the ceiling of
totalBooks over limit (Math.ceil, written in integer arithmetic), sort,
skip (page - 1) * limit records, take limit records, and report the
pagination metadata exactly as the source computes it. -/
def listBooks (db : List Book) (q : ListQuery) : List Book × Pagination :=
  let matching := matchingBooks db q.filter
  let totalBooks := matching.length
  let totalPages := (totalBooks + q.limit - 1) / q.limit
  let skip := (q.page - 1) * q.limit
  let books := ((sortBooks q.sortBy q.sort matching).drop skip).take q.limit
  (books,
    { currentPage := q.page
      totalPages := totalPages
      totalBooks := totalBooks
      limit := q.limit
      hasNextPage := decide (q.page < totalPages)
      hasPrevPage := decide (1 < q.page) })

/-- A zod validation issue as consumed by formatZodError: its path (a
list of field-name segments), its message, its issue code, and the
optional minimum / options attributes that some issue kinds carry. -/
structure ZodIssue where
  path : List String
  message : String
  code : String
  minimum : Option Int
  options : Option (List String)
deriving DecidableEq, Repr

/-- The per-field entry built by formatZodError for one issue: message,
the fixed name ValidatorError, the nested properties object (message,
type, optional min and enum), kind (the issue code), path (the top-level
field) and the rejected value looked up in the original input. -/
structure FieldError (α : Type) where
  message : String
  name : String
  propMessage : String
  propType : String
  propMin : Option Int
  propEnum : Option (List String)
  kind : String
  path : String
  value : Option α
deriving DecidableEq, Repr

/-- The key formatZodError uses for an issue: the first segment of its
path (JavaScript issue.path[0]; an empty path yields the undefined key,
which string-coerces to "undefined"). -/
def issueField (i : ZodIssue) : String :=
  i.path.headD "undefined"

/-- The entry formatZodError stores for one issue, from
src/app/utils/formatZodError.ts lines 9-28. -/
def mkFieldError {α : Type} (i : ZodIssue) (source : List (String × α)) :
    FieldError α :=
  { message := i.message
    name := "ValidatorError"
    propMessage := i.message
    propType := i.code
    propMin := i.minimum
    propEnum := i.options
    kind := i.code
    path := issueField i
    value := List.lookup (issueField i) source }

/-- In-place replacement of the entries keyed k, identity elsewhere. -/
def replaceEntry {α : Type} (k : String) (v : FieldError α)
    (p : String × FieldError α) : String × FieldError α :=
  if p.1 == k then (k, v) else p

/-- JavaScript object assignment errors[field] = entry: overwrite in
place when the key exists, otherwise append. -/
def upsert {α : Type} (m : List (String × FieldError α)) (k : String)
    (v : FieldError α) : List (String × FieldError α) :=
  if m.any (fun p => p.1 == k) then m.map (replaceEntry k v)
  else m ++ [(k, v)]

/-- The errors object accumulated by the for-loop of formatZodError. -/
def buildErrors {α : Type} (issues : List ZodIssue)
    (source : List (String × α)) : List (String × FieldError α) :=
  issues.foldl (fun m i => upsert m (issueField i) (mkFieldError i source)) []

/-- The envelope returned by formatZodError: the joined field messages
(or the fallback when that string is empty), success false, and the
ValidationError object holding the per-field map. -/
structure ErrorEnvelope (α : Type) where
  message : String
  success : Bool
  errName : String
  errors : List (String × FieldError α)
deriving DecidableEq, Repr

/-- formatZodError from src/app/utils/formatZodError.ts: build the
per-field error map, join the entry messages with a comma, and wrap
everything in the ValidationError envelope. -/
def formatZodError {α : Type} (issues : List ZodIssue)
    (source : List (String × α)) : ErrorEnvelope α :=
  let errors := buildErrors issues source
  let errorMessages :=
    String.intercalate ", " (errors.map fun p => p.2.message)
  { message := if errorMessages == "" then "Validation failed"
      else errorMessages
    success := false
    errName := "ValidationError"
    errors := errors }

/-- The validation-failure branch of POST /api/books (and of the other
body-validated routes) in src/app/controllers/books.controller.ts:
respond with status 400 and the formatZodError envelope. -/
def postBookValidationFailure {α : Type} (issues : List ZodIssue)
    (source : List (String × α)) : Nat × ErrorEnvelope α :=
  (400, formatZodError issues source)

/-- The connection state of src/server.ts: the module-level isConnected
flag, plus a count of how many times mongoose.connect has been invoked. -/
structure ConnState where
  isConnected : Bool
  connectCalls : Nat
deriving DecidableEq, Repr

/-- One call to connectDB from src/server.ts: when the flag is unset,
mongoose.connect is invoked (counted); the oracle says whether that
invocation (numbered by the count so far) succeeds; only on success is
the flag set — a rejected connect propagates before the assignment. -/
def connectDB (oracle : Nat → Bool) (s : ConnState) : ConnState :=
  if s.isConnected then s
  else
    let s' : ConnState := { s with connectCalls := s.connectCalls + 1 }
    if oracle s.connectCalls then { s' with isConnected := true } else s'

/-- n sequential calls to connectDB starting from the initial module
state (flag unset, no connect invocations). -/
def runConnectDB (oracle : Nat → Bool) : Nat → ConnState
  | 0 => ⟨false, 0⟩
  | n + 1 => connectDB oracle (runConnectDB oracle n)

/-- Concrete book used by the witnesses. -/
def sampleBook : Book :=
  { title := "Dune"
    author := "Frank Herbert"
    genre := "FANTASY"
    isbn := "9780441172719"
    description := "Desert epic"
    copies := 5
    available := true }

/-- Second concrete book used by the witnesses. -/
def sampleBookB : Book :=
  { title := "Cosmos"
    author := "Carl Sagan"
    genre := "SCIENCE"
    isbn := "9780345539435"
    description := "A personal voyage"
    copies := 4
    available := true }

/-- Concrete store used by the witnesses. -/
def sampleStore : Store :=
  { books := [("a", sampleBook), ("b", sampleBookB)], borrows := [] }

/-- Looking up the updated key after updateAssoc returns the new book,
provided the key was present. -/
theorem lookup_updateAssoc (m : List (String × Book)) (k : String)
    (v : Book) (b : Book) (h : List.lookup k m = some b) :
    List.lookup k (updateAssoc m k v) = some v := by
  induction m with
  | nil => simp [List.lookup] at h
  | cons p t ih =>
    obtain ⟨k', b'⟩ := p
    simp only [updateAssoc, List.map_cons]
    by_cases hk : k' = k
    · subst hk
      rw [if_pos (by simp)]
      simp [List.lookup]
    · have h1 : (k' == k) = false := beq_eq_false_iff_ne.mpr hk
      have h2 : (k == k') = false :=
        beq_eq_false_iff_ne.mpr fun e => hk e.symm
      simp only [List.lookup, h2] at h
      rw [if_neg (by simp [h1])]
      simp only [List.lookup, h2]
      exact ih h

/-- Unfolding createBorrow when the referenced book is present. -/
theorem createBorrow_eq_found (s : Store) (id : String) (q : Int)
    (d : Nat) (b : Book) (h : List.lookup id s.books = some b) :
    createBorrow s id q d =
      if b.copies < q then (BorrowResult.insufficient, s)
      else
        (BorrowResult.created ⟨id, q, d⟩,
          { books := updateAssoc s.books id
              (updateBookCopiesAndAvailable b (b.copies - q))
            borrows := s.borrows ++ [⟨id, q, d⟩] }) := by
  unfold createBorrow
  rw [h]

/-- C1: after every mutation of the copies field — through the direct
administrative update path and through the borrow-triggered decrement —
the available flag equals copies > 0; the recomputation happens inside
the mutation operation itself, on every path. -/
theorem available_recomputed_on_every_copies_mutation (b : Book)
    (n : Int) (s : Store) (id : String) (q : Int) (d : Nat) :
    (∀ b', adminUpdateCopies b n = Except.ok b' →
      b'.available = decide (0 < b'.copies)) ∧
    (∀ r s' bb, createBorrow s id q d = (BorrowResult.created r, s') →
      List.lookup id s'.books = some bb →
      bb.available = decide (0 < bb.copies)) := by
  constructor
  · intro b' h
    unfold adminUpdateCopies at h
    by_cases hn : n < 0
    · simp [hn] at h
    · simp [hn] at h
      subst h
      simp [updateBookCopiesAndAvailable]
  · intro r s' bb hrun hlook
    cases hfind : List.lookup id s.books with
    | none =>
      unfold createBorrow at hrun
      rw [hfind] at hrun
      exact absurd (congrArg Prod.fst hrun) (by simp)
    | some bk =>
      rw [createBorrow_eq_found s id q d bk hfind] at hrun
      by_cases hq : bk.copies < q
      · rw [if_pos hq] at hrun
        exact absurd (congrArg Prod.fst hrun) (by simp)
      · rw [if_neg hq] at hrun
        injection hrun with hr hs
        subst hs
        have hb' := lookup_updateAssoc s.books id
          (updateBookCopiesAndAvailable bk (bk.copies - q)) bk hfind
        rw [hb'] at hlook
        injection hlook with hbb
        subst hbb
        simp [updateBookCopiesAndAvailable]

/-- Witness for C1 at concrete inputs: an administrative update to zero
copies and a borrow of two of the five copies of the sample book both
leave available equal to copies > 0. -/
theorem available_recomputed_on_every_copies_mutation_witness :
    ((updateBookCopiesAndAvailable sampleBook 0).available
      = decide (0 < (updateBookCopiesAndAvailable sampleBook 0).copies)) ∧
    ((updateBookCopiesAndAvailable sampleBook 3).available
      = decide (0 < (updateBookCopiesAndAvailable sampleBook 3).copies)) := by
  have h := available_recomputed_on_every_copies_mutation sampleBook 0
    sampleStore "a" 2 100
  refine ⟨h.1 _ rfl, ?_⟩
  exact h.2 ⟨"a", 2, 100⟩
    { books := updateAssoc sampleStore.books "a"
        (updateBookCopiesAndAvailable sampleBook 3)
      borrows := [⟨"a", 2, 100⟩] }
    (updateBookCopiesAndAvailable sampleBook 3) (by decide) (by decide)

/-- C2: a borrow request whose quantity strictly exceeds the current
copies of the referenced book is rejected as insufficient stock with
status 400 and the store — both the book copies and the borrow records —
is left unchanged. -/
theorem borrow_insufficient_stock_rejected (s : Store) (id : String)
    (q : Int) (d : Nat) (b : Book)
    (hfound : List.lookup id s.books = some b) (hq : b.copies < q) :
    createBorrow s id q d = (BorrowResult.insufficient, s) ∧
    borrowStatus (createBorrow s id q d).1 = 400 := by
  have h : createBorrow s id q d = (BorrowResult.insufficient, s) := by
    rw [createBorrow_eq_found s id q d b hfound, if_pos hq]
  exact ⟨h, by rw [h]; rfl⟩

/-- Witness for C2: borrowing six copies of the sample book, which has
five, yields the insufficient-stock rejection and leaves the store
unchanged. -/
theorem borrow_insufficient_stock_rejected_witness :
    List.lookup "a" sampleStore.books = some sampleBook ∧
    sampleBook.copies < 6 ∧
    createBorrow sampleStore "a" 6 100
      = (BorrowResult.insufficient, sampleStore) := by
  refine ⟨by decide, by decide, ?_⟩
  exact (borrow_insufficient_stock_rejected sampleStore "a" 6 100
    sampleBook (by decide) (by decide)).1

/-- Counting the summary rows for one book over any duplicate-free list
of group keys: exactly one row when the key is present (the referenced
book being stored), zero otherwise. -/
theorem summary_rows_countP (books : List (String × Book))
    (borrows : List BorrowRecord) (id : String) (l : List String)
    (hl : l.Nodup) (hsome : (List.lookup id books).isSome) :
    ((l.filterMap fun i => (List.lookup i books).map fun b =>
        (⟨i, b.title, b.isbn, totalFor borrows i⟩ : SummaryRow)).countP
      fun r => r.bookId == id) = if id ∈ l then 1 else 0 := by
  induction l with
  | nil => simp
  | cons i t ih =>
    have ht : t.Nodup := hl.of_cons
    cases hfind : List.lookup i books with
    | none =>
      have hne : id ≠ i := by
        intro e
        rw [e, hfind] at hsome
        simp at hsome
      simp only [List.filterMap_cons, hfind, Option.map_none']
      rw [ih ht]
      simp [List.mem_cons, hne]
    | some b =>
      simp only [List.filterMap_cons, hfind, Option.map_some']
      rw [List.countP_cons]
      rw [ih ht]
      by_cases he : i = id
      · subst he
        have hnotin : i ∉ t := (List.nodup_cons.mp hl).1
        simp [hnotin]
      · have hne : id ≠ i := fun e => he e.symm
        simp [List.mem_cons, hne, beq_eq_false_iff_ne.mpr he]

/-- C3: the borrowed-books summary has exactly one row per distinct book
with at least one borrow record, no row for a book with none, and each
row for a book carries the sum of the quantities of all borrow records
referencing it, together with that book's title and isbn. -/
theorem borrow_summary_correct (books : List (String × Book))
    (borrows : List BorrowRecord) (id : String) (b : Book)
    (hfound : List.lookup id books = some b) :
    ((borrowSummary books borrows).countP fun r => r.bookId == id)
      = (if borrows.any (fun r => r.book == id) then 1 else 0) ∧
    ∀ row ∈ borrowSummary books borrows, row.bookId = id →
      row.totalQuantityBorrowed = totalFor borrows id ∧
      row.bookTitle = b.title ∧ row.isbn = b.isbn := by
  constructor
  · have hsome : (List.lookup id books).isSome := by rw [hfound]; rfl
    have h := summary_rows_countP books borrows id
      (borrowedBookIds borrows) (List.nodup_dedup _) hsome
    rw [borrowSummary, h]
    have hmem : id ∈ borrowedBookIds borrows
        ↔ (borrows.any fun r => r.book == id) = true := by
      rw [borrowedBookIds, List.mem_dedup, List.any_eq_true]
      constructor
      · intro hm
        obtain ⟨r, hr, he⟩ := List.mem_map.mp hm
        exact ⟨r, hr, beq_iff_eq.mpr he⟩
      · intro ⟨r, hr, he⟩
        exact List.mem_map.mpr ⟨r, hr, beq_iff_eq.mp he⟩
    by_cases hin : id ∈ borrowedBookIds borrows
    · rw [if_pos hin, if_pos (hmem.mp hin)]
    · rw [if_neg hin, if_neg fun hb => hin (hmem.mpr hb)]
  · intro row hrow hid
    obtain ⟨i, hi, hrow⟩ := List.mem_filterMap.mp hrow
    obtain ⟨b', hb', he⟩ := Option.map_eq_some'.mp hrow
    have hii : i = id := by rw [← he] at hid; exact hid
    subst hii
    rw [hfound] at hb'
    injection hb' with hb'
    subst hb'
    rw [← he]
    exact ⟨rfl, rfl, rfl⟩

/-- Borrow records used by the C3 witness: the aggregation test vector
of the spec, two records for book a (quantities 2 and 3) and one for
book b (quantity 5). -/
def sampleBorrows : List BorrowRecord :=
  [⟨"a", 2, 10⟩, ⟨"a", 3, 11⟩, ⟨"b", 5, 12⟩]

/-- Witness for C3 on the spec test vector: book a has exactly one row,
and the computed summary totals are 5 for book a and 5 for book b. -/
theorem borrow_summary_correct_witness :
    ((borrowSummary sampleStore.books sampleBorrows).countP
        fun r => r.bookId == "a")
      = (if sampleBorrows.any (fun r => r.book == "a") then 1 else 0) ∧
    ((borrowSummary sampleStore.books sampleBorrows).map
        fun r => (r.bookId, r.totalQuantityBorrowed))
      = [("a", 5), ("b", 5)] := by
  refine ⟨?_, by decide⟩
  exact (borrow_summary_correct sampleStore.books sampleBorrows "a"
    sampleBook (by decide)).1

/-- C4 evaluated at a failing input: the GET /:bookId handler, given a
well-formed identifier that matches no stored book, emits the 404
Book-not-found response and then — the source has no return statement
after it — also emits a 200 Book-retrieved response with null data, so
the handler body attempts two responses rather than exactly one. -/
theorem getBookById_missing_book_sends_two_responses :
    getBookById [] "0123456789abcdef01234567"
      = ([⟨404, false, "Book not found", none⟩,
          ⟨200, true, "Book retrieved successfully", none⟩], 1) := by
  decide

/-- C5: a malformed book identifier is rejected by params validation
with a single 400 response — never 404 or 500 — and no store lookup is
performed: the handler result is independent of the stored books and
its lookup count is zero. -/
theorem malformed_id_rejected_before_lookup
    (db : List (String × Book)) (id : String)
    (h : isValidObjectId id = false) :
    getBookById db id = ([⟨400, false, "Validation failed", none⟩], 0) ∧
    ((getBookById db id).1.map fun r => r.status) = [400] ∧
    (getBookById db id).2 = 0 := by
  have he : getBookById db id
      = ([⟨400, false, "Validation failed", none⟩], 0) := by
    unfold getBookById
    rw [h]
    rfl
  exact ⟨he, by rw [he]; rfl, by rw [he]⟩

/-- Witness for C5: requesting the malformed identifier not-an-id
against the sample store yields exactly one response, a 400, with no
store lookup. -/
theorem malformed_id_rejected_before_lookup_witness :
    isValidObjectId "not-an-id" = false ∧
    getBookById sampleStore.books "not-an-id"
      = ([⟨400, false, "Validation failed", none⟩], 0) := by
  refine ⟨by decide, ?_⟩
  exact (malformed_id_rejected_before_lookup sampleStore.books
    "not-an-id" (by decide)).1

/-- The integer form of Math.ceil(t / L) is the least n with t ≤ n * L:
upper bound part. -/
theorem ceilDiv_mul_ge (t L : Nat) (hL : 1 ≤ L) :
    t ≤ (t + L - 1) / L * L := by
  have hdm := Nat.div_add_mod (t + L - 1) L
  have hlt : (t + L - 1) % L < L := Nat.mod_lt _ (by omega)
  rw [Nat.mul_comm]
  generalize hA : L * ((t + L - 1) / L) = A at hdm
  omega

/-- The integer form of Math.ceil(t / L) is the least n with t ≤ n * L:
minimality part. -/
theorem ceilDiv_least (t L m : Nat) (hL : 1 ≤ L) (hm : t ≤ m * L) :
    (t + L - 1) / L ≤ m := by
  have hdm := Nat.div_add_mod (t + L - 1) L
  have hlt : (t + L - 1) % L < L := Nat.mod_lt _ (by omega)
  have hmul : L * ((t + L - 1) / L) < L * (m + 1) := by
    rw [Nat.mul_succ]
    rw [Nat.mul_comm L m] at *
    generalize hA : L * ((t + L - 1) / L) = A at hdm
    generalize hB : m * L = B at hm
    omega
  have := Nat.lt_of_mul_lt_mul_left hmul
  omega

/-- C6: for every parametered book listing, the metadata satisfies
currentPage = page, totalBooks = the count of records matching the
filter before pagination, totalPages = the ceiling of totalBooks over
limit (characterized as the least page count covering all matching
records), hasNextPage = (page < totalPages) and
hasPrevPage = (page > 1). -/
theorem pagination_metadata_correct (db : List Book) (q : ListQuery)
    (hL : 1 ≤ q.limit) :
    (listBooks db q).2.currentPage = q.page ∧
    (listBooks db q).2.totalBooks = (matchingBooks db q.filter).length ∧
    (listBooks db q).2.limit = q.limit ∧
    (listBooks db q).2.totalBooks
      ≤ (listBooks db q).2.totalPages * q.limit ∧
    (∀ m, (listBooks db q).2.totalBooks ≤ m * q.limit →
      (listBooks db q).2.totalPages ≤ m) ∧
    (listBooks db q).2.hasNextPage
      = decide (q.page < (listBooks db q).2.totalPages) ∧
    (listBooks db q).2.hasPrevPage = decide (1 < q.page) := by
  refine ⟨rfl, rfl, rfl, ?_, ?_, rfl, rfl⟩
  · exact ceilDiv_mul_ge (matchingBooks db q.filter).length q.limit hL
  · intro m hm
    exact ceilDiv_least (matchingBooks db q.filter).length q.limit m
      hL hm

/-- Listing query used by the C6 and C7 witnesses: lower-case fantasy
filter, limit 1, page 2. -/
def sampleListQuery : ListQuery :=
  { filter := some "fantasy"
    sortBy := some "title"
    sort := "asc"
    limit := 1
    page := 2 }

/-- A third concrete book used by the listing witnesses. -/
def hobbitBook : Book :=
  { title := "Hobbit"
    author := "Tolkien"
    genre := "FANTASY"
    isbn := "9780547928227"
    description := "There and back again"
    copies := 2
    available := true }

/-- Books used by the C6 and C7 witnesses: two fantasy books and one
science book. -/
def sampleShelf : List Book :=
  [sampleBook, sampleBookB, hobbitBook]

/-- Witness for C6 at the sample listing: page 2, two matching fantasy
books, two total pages at limit 1, and a page count that covers the
matches and is at most 2. -/
theorem pagination_metadata_correct_witness :
    (listBooks sampleShelf sampleListQuery).2.currentPage = 2 ∧
    (listBooks sampleShelf sampleListQuery).2.totalBooks
      ≤ (listBooks sampleShelf sampleListQuery).2.totalPages
          * sampleListQuery.limit ∧
    (listBooks sampleShelf sampleListQuery).2.totalPages ≤ 2 := by
  have h := pagination_metadata_correct sampleShelf sampleListQuery
    (by decide)
  exact ⟨h.1, h.2.2.2.1, h.2.2.2.2.1 2 (by decide)⟩

/-- Every genre constant of the closed set is already upper-case. -/
theorem upperStr_genres : ∀ g ∈ GENRES, upperStr g = g := by decide

/-- The sort stage permutes the list it is given. -/
theorem sortBooks_perm (sb : Option String) (sd : String)
    (l : List Book) : (sortBooks sb sd l).Perm l := by
  cases sb with
  | none => exact List.Perm.refl l
  | some f =>
    simp only [sortBooks]
    split
    · exact List.perm_insertionSort _ l
    · exact List.perm_insertionSort _ l

/-- C7: a genre-filtered listing with limit L and page P returns at
most L items; every returned item has genre equal to the upper-cased
filter value, hence matches the filter value case-insensitively; and
the returned items are the window of the (sorted) matching records that
skips the first (P - 1) * L of them. -/
theorem genre_filter_listing_correct (db : List Book) (q : ListQuery)
    (f : String) (hf : q.filter = some f)
    (hg : ∀ b ∈ db, b.genre ∈ GENRES) :
    (listBooks db q).1.length ≤ q.limit ∧
    (∀ b ∈ (listBooks db q).1,
      b.genre = upperStr f ∧ upperStr b.genre = upperStr f) ∧
    ∃ ms : List Book, ms.Perm (matchingBooks db q.filter) ∧
      (listBooks db q).1
        = (ms.drop ((q.page - 1) * q.limit)).take q.limit := by
  have hres : (listBooks db q).1
      = ((sortBooks q.sortBy q.sort (matchingBooks db q.filter)).drop
          ((q.page - 1) * q.limit)).take q.limit := rfl
  refine ⟨?_, ?_,
    sortBooks q.sortBy q.sort (matchingBooks db q.filter),
    sortBooks_perm _ _ _, hres⟩
  · rw [hres]
    exact List.length_take_le _ _
  · intro b hb
    rw [hres] at hb
    have hb1 : b ∈ (sortBooks q.sortBy q.sort
        (matchingBooks db q.filter)).drop ((q.page - 1) * q.limit) :=
      List.take_subset _ _ hb
    have hb2 : b ∈ sortBooks q.sortBy q.sort
        (matchingBooks db q.filter) := List.drop_subset _ _ hb1
    have hb3 : b ∈ matchingBooks db q.filter :=
      (sortBooks_perm _ _ _).mem_iff.mp hb2
    rw [hf] at hb3
    have hb4 := List.mem_filter.mp hb3
    have hgen : b.genre = upperStr f := by
      have := hb4.2
      exact beq_iff_eq.mp this
    exact ⟨hgen, by rw [upperStr_genres b.genre (hg b hb4.1), hgen]⟩

/-- Witness for C7: listing the sample shelf with the lower-case filter
fantasy, limit 1, page 2 returns at most one item, and the returned
Hobbit record matches the filter despite its case. -/
theorem genre_filter_listing_correct_witness :
    (listBooks sampleShelf sampleListQuery).1.length
      ≤ sampleListQuery.limit ∧
    (listBooks sampleShelf sampleListQuery).1 = [hobbitBook] ∧
    hobbitBook.genre = upperStr "fantasy" := by
  have h := genre_filter_listing_correct sampleShelf sampleListQuery
    "fantasy" rfl (by decide)
  have hl : (listBooks sampleShelf sampleListQuery).1 = [hobbitBook] :=
    rfl
  refine ⟨h.1, hl, ?_⟩
  exact (h.2.1 hobbitBook (by rw [hl]; exact List.mem_singleton_self _)).1

/-- Membership in an upserted map: either the pair was already present,
or it is the inserted key-value pair. -/
theorem mem_upsert {α : Type} (m : List (String × FieldError α))
    (k : String) (v : FieldError α) (f : String) (e : FieldError α)
    (h : (f, e) ∈ upsert m k v) : (f, e) ∈ m ∨ (f = k ∧ e = v) := by
  unfold upsert at h
  by_cases hany : (m.any fun p => p.1 == k) = true
  · rw [if_pos hany] at h
    obtain ⟨p, hp, hpe⟩ := List.mem_map.mp h
    unfold replaceEntry at hpe
    by_cases hpk : (p.1 == k) = true
    · rw [if_pos hpk] at hpe
      injection hpe with h1 h2
      exact Or.inr ⟨h1.symm, h2.symm⟩
    · rw [if_neg hpk] at hpe
      rw [hpe] at hp
      exact Or.inl hp
  · rw [if_neg hany] at h
    rcases List.mem_append.mp h with h1 | h1
    · exact Or.inl h1
    · rcases List.mem_singleton.mp h1 with h2
      injection h2 with h3 h4
      exact Or.inr ⟨h3, h4⟩

/-- Every entry of the accumulated error map comes from the starting
map or from one of the processed issues, keyed by that issue's
top-level field and carrying exactly the entry built for it. -/
theorem mem_foldl_upsert {α : Type} (src : List (String × α))
    (issues : List ZodIssue) (m : List (String × FieldError α))
    (f : String) (e : FieldError α)
    (h : (f, e) ∈ issues.foldl
      (fun acc i => upsert acc (issueField i) (mkFieldError i src)) m) :
    (f, e) ∈ m ∨
      ∃ i ∈ issues, issueField i = f ∧ e = mkFieldError i src := by
  induction issues generalizing m with
  | nil => exact Or.inl h
  | cons i rest ih =>
    rcases ih _ h with hm | ⟨j, hj, hje⟩
    · rcases mem_upsert _ _ _ _ _ hm with h1 | ⟨h1, h2⟩
      · exact Or.inl h1
      · exact Or.inr ⟨i, List.mem_cons_self _ _, h1.symm, h2⟩
    · exact Or.inr ⟨j, List.mem_cons_of_mem _ hj, hje⟩

/-- C8: the schema-validation failure branch responds with status 400,
and every entry of the per-field error map belongs to some issue on
that field and carries that issue's message, its code as the kind, and
the rejected value looked up in the original input. -/
theorem validation_failure_response {α : Type} (issues : List ZodIssue)
    (source : List (String × α)) (f : String) (e : FieldError α)
    (h : (f, e) ∈ (postBookValidationFailure issues source).2.errors) :
    (postBookValidationFailure issues source).1 = 400 ∧
    ∃ i ∈ issues, issueField i = f ∧ e.message = i.message ∧
      e.kind = i.code ∧ e.value = List.lookup f source := by
  refine ⟨rfl, ?_⟩
  have h' : (f, e) ∈ buildErrors issues source := h
  rcases mem_foldl_upsert source issues [] f e h' with h0 | ⟨i, hi, hif, he⟩
  · simp at h0
  · refine ⟨i, hi, hif, ?_, ?_, ?_⟩
    · rw [he]; rfl
    · rw [he]; rfl
    · rw [he]
      show List.lookup (issueField i) source = List.lookup f source
      rw [hif]

/-- Validation issue used by the C8 witness. -/
def sampleIssue : ZodIssue :=
  { path := ["copies"]
    message := "Copies must be a positive number"
    code := "too_small"
    minimum := some 0
    options := none }

/-- Original request body used by the C8 witness. -/
def sampleSource : List (String × String) :=
  [("title", "Dune"), ("copies", "-1")]

/-- Witness for C8: the one-issue validation failure on the copies
field responds 400, and its entry carries the issue message, the
too_small kind and the rejected value -1 from the input. -/
theorem validation_failure_response_witness :
    ("copies", mkFieldError sampleIssue sampleSource)
      ∈ (postBookValidationFailure [sampleIssue] sampleSource).2.errors ∧
    (postBookValidationFailure [sampleIssue] sampleSource).1 = 400 ∧
    (mkFieldError sampleIssue sampleSource).value = some "-1" := by
  refine ⟨by decide, ?_, by decide⟩
  exact (validation_failure_response [sampleIssue] sampleSource "copies"
    (mkFieldError sampleIssue sampleSource) (by decide)).1

/-- C9 counterexample: with a first mongoose.connect invocation that
rejects (the flag assignment after the await is then never reached) and
a second that succeeds, two sequential calls to connectDB invoke
mongoose.connect twice — the claimed at-most-once bound fails. -/
theorem connectDB_reconnects_after_failed_attempt :
    (runConnectDB (fun k => decide (1 ≤ k)) 2).connectCalls = 2 ∧
    ¬(runConnectDB (fun k => decide (1 ≤ k)) 2).connectCalls ≤ 1 := by
  decide

/-- A call with the flag already set does nothing. -/
theorem connectDB_eq_connected (oracle : Nat → Bool) (s : ConnState)
    (h : s.isConnected = true) : connectDB oracle s = s := by
  unfold connectDB
  rw [if_pos h]

/-- A call with the flag unset and a succeeding connect invokes the
connection once and sets the flag. -/
theorem connectDB_eq_unconnected_success (oracle : Nat → Bool)
    (s : ConnState) (h : s.isConnected = false)
    (hs : oracle s.connectCalls = true) :
    connectDB oracle s = ⟨true, s.connectCalls + 1⟩ := by
  unfold connectDB
  rw [if_neg (by simp [h]), hs, if_pos rfl]

/-- Invariant of successful-only connect sequences: while the flag is
unset no invocation has happened, and never more than one happens. -/
theorem connectDB_success_invariant (oracle : Nat → Bool)
    (hsucc : ∀ k, oracle k = true) (n : Nat) :
    ((runConnectDB oracle n).isConnected = false →
      (runConnectDB oracle n).connectCalls = 0) ∧
    (runConnectDB oracle n).connectCalls ≤ 1 := by
  induction n with
  | zero => exact ⟨fun _ => rfl, Nat.zero_le 1⟩
  | succ n ih =>
    have hstep : runConnectDB oracle (n + 1)
        = connectDB oracle (runConnectDB oracle n) := rfl
    cases hc : (runConnectDB oracle n).isConnected with
    | true =>
      rw [hstep, connectDB_eq_connected oracle _ hc]
      exact ih
    | false =>
      rw [hstep, connectDB_eq_unconnected_success oracle _ hc (hsucc _)]
      have h0 := ih.1 hc
      constructor
      · intro h
        simp at h
      · show (runConnectDB oracle n).connectCalls + 1 ≤ 1
        omega

/-- C9 amended: when every mongoose.connect invocation succeeds, any
number of sequential calls to connectDB invokes mongoose.connect at
most once, because the module-level flag is set after the first
successful connection and checked on every call. -/
theorem connectDB_connects_at_most_once_on_success
    (oracle : Nat → Bool) (n : Nat) (hsucc : ∀ k, oracle k = true) :
    (runConnectDB oracle n).connectCalls ≤ 1 :=
  (connectDB_success_invariant oracle hsucc n).2

/-- Witness for the amended C9: five sequential calls with an
always-successful connect invoke mongoose.connect at most once. -/
theorem connectDB_connects_at_most_once_on_success_witness :
    (runConnectDB (fun _ => true) 5).connectCalls ≤ 1 :=
  connectDB_connects_at_most_once_on_success (fun _ => true) 5
    fun _ => rfl

/-- Association-list lookup distributes over append, first list first. -/
theorem lookup_append_or {β : Type} (f : String)
    (l₁ l₂ : List (String × β)) :
    List.lookup f (l₁ ++ l₂)
      = (List.lookup f l₁).or (List.lookup f l₂) := by
  induction l₁ with
  | nil => simp [List.lookup]
  | cons p t ih =>
    obtain ⟨k, v⟩ := p
    cases hk : f == k with
    | true => simp [List.lookup, hk, Option.or]
    | false => simp [List.lookup, hk, ih]

/-- When no entry has the key, lookup misses. -/
theorem lookup_eq_none_of_any_eq_false {β : Type} (k : String)
    (m : List (String × β)) (h : (m.any fun p => p.1 == k) = false) :
    List.lookup k m = none := by
  induction m with
  | nil => rfl
  | cons p t ih =>
    obtain ⟨k', v'⟩ := p
    simp only [List.any_cons, Bool.or_eq_false_iff] at h
    have hk : (k == k') = false := by
      cases he : k == k' with
      | false => rfl
      | true =>
        rw [beq_iff_eq.mp he] at h
        rw [beq_self_eq_true] at h
        exact absurd h.1 (by decide)
    simp only [List.lookup, hk]
    exact ih h.2

/-- find? distributes over append, first list first. -/
theorem find?_append_or {β : Type} (p : β → Bool) (l₁ l₂ : List β) :
    List.find? p (l₁ ++ l₂)
      = (List.find? p l₁).or (List.find? p l₂) := by
  induction l₁ with
  | nil => simp [List.find?]
  | cons a t ih =>
    cases ha : p a with
    | true => simp [List.find?_cons, ha, Option.or]
    | false => simp [List.find?_cons, ha, ih]

/-- replaceEntry on an entry keyed k yields the new entry. -/
theorem replaceEntry_hit {α : Type} (k k' : String)
    (v v' : FieldError α) (h : (k' == k) = true) :
    replaceEntry k v (k', v') = (k, v) := by
  unfold replaceEntry
  exact if_pos h

/-- replaceEntry on an entry with another key is the identity. -/
theorem replaceEntry_miss {α : Type} (k k' : String)
    (v v' : FieldError α) (h : (k' == k) = false) :
    replaceEntry k v (k', v') = (k', v') := by
  unfold replaceEntry
  exact if_neg (by simp [h])

/-- Replacing the entries keyed k in place makes k map to the new
entry, provided some entry had key k. -/
theorem lookup_map_replace_hit {α : Type}
    (m : List (String × FieldError α)) (k : String) (v : FieldError α)
    (hany : (m.any fun p => p.1 == k) = true) :
    List.lookup k (m.map (replaceEntry k v)) = some v := by
  induction m with
  | nil => simp at hany
  | cons p t ih =>
    obtain ⟨k', v'⟩ := p
    simp only [List.any_cons, Bool.or_eq_true] at hany
    cases hk' : k' == k with
    | true =>
      rw [List.map_cons, replaceEntry_hit k k' v v' hk']
      simp [List.lookup]
    | false =>
      rw [List.map_cons, replaceEntry_miss k k' v v' hk']
      have hkk : (k == k') = false :=
        beq_eq_false_iff_ne.mpr fun e =>
          absurd (beq_iff_eq.mpr e.symm) (by rw [hk']; decide)
      simp only [List.lookup, hkk]
      rcases hany with h1 | h1
      · exact absurd h1 (by rw [hk']; decide)
      · exact ih h1

/-- Replacing the entries keyed k in place leaves lookups of every
other key untouched. -/
theorem lookup_map_replace_miss {α : Type}
    (m : List (String × FieldError α)) (k : String) (v : FieldError α)
    (f : String) (hf : f ≠ k) :
    List.lookup f (m.map (replaceEntry k v)) = List.lookup f m := by
  induction m with
  | nil => rfl
  | cons p t ih =>
    obtain ⟨k', v'⟩ := p
    cases hk' : k' == k with
    | true =>
      rw [List.map_cons, replaceEntry_hit k k' v v' hk']
      have hke : k' = k := beq_iff_eq.mp hk'
      subst hke
      simp only [List.lookup, beq_eq_false_iff_ne.mpr hf]
      exact ih
    | false =>
      rw [List.map_cons, replaceEntry_miss k k' v v' hk']
      simp only [List.lookup]
      cases hfk : f == k' with
      | true => rfl
      | false => exact ih

/-- Lookup after a JavaScript-object upsert: the inserted key now maps
to the new entry, every other key is untouched. -/
theorem lookup_upsert {α : Type} (m : List (String × FieldError α))
    (k : String) (v : FieldError α) (f : String) :
    List.lookup f (upsert m k v)
      = if (k == f) = true then some v else List.lookup f m := by
  unfold upsert
  by_cases hany : (m.any fun p => p.1 == k) = true
  · rw [if_pos hany]
    by_cases hf : k = f
    · subst hf
      rw [if_pos (beq_self_eq_true k)]
      exact lookup_map_replace_hit m k v hany
    · rw [beq_eq_false_iff_ne.mpr hf, if_neg (by simp)]
      exact lookup_map_replace_miss m k v f fun e => hf e.symm
  · rw [if_neg hany]
    rw [lookup_append_or]
    by_cases hf : k = f
    · subst hf
      rw [if_pos (beq_self_eq_true k)]
      rw [lookup_eq_none_of_any_eq_false k m
        (Bool.eq_false_iff.mpr hany)]
      simp [List.lookup, Option.or]
    · rw [beq_eq_false_iff_ne.mpr hf, if_neg (by simp)]
      have hfk : (f == k) = false :=
        beq_eq_false_iff_ne.mpr fun e => hf e.symm
      simp [List.lookup, hfk, Option.or_none]

/-- replaceEntry never changes the key of an entry. -/
theorem fst_replaceEntry {α : Type} (k : String) (v : FieldError α)
    (p : String × FieldError α) : (replaceEntry k v p).1 = p.1 := by
  unfold replaceEntry
  by_cases h : (p.1 == k) = true
  · rw [if_pos h]
    exact (beq_iff_eq.mp h).symm
  · rw [if_neg h]

/-- Keys are untouched by the in-place replacement map. -/
theorem keys_map_replaceEntry {α : Type}
    (m : List (String × FieldError α)) (k : String)
    (v : FieldError α) :
    (m.map (replaceEntry k v)).map Prod.fst = m.map Prod.fst := by
  induction m with
  | nil => rfl
  | cons p t ih =>
    simp only [List.map_cons]
    rw [fst_replaceEntry, ih]

/-- The key list after an upsert: unchanged when the key was present,
extended by the key otherwise. -/
theorem keys_upsert {α : Type} (m : List (String × FieldError α))
    (k : String) (v : FieldError α) :
    (upsert m k v).map Prod.fst
      = if (m.any fun p => p.1 == k) = true then m.map Prod.fst
        else m.map Prod.fst ++ [k] := by
  unfold upsert
  by_cases hany : (m.any fun p => p.1 == k) = true
  · rw [if_pos hany, if_pos hany]
    exact keys_map_replaceEntry m k v
  · rw [if_neg hany, if_neg hany]
    simp [List.map_append]

/-- A key absent from every entry is absent from the key list. -/
theorem not_mem_keys_of_any_eq_false {α : Type} (k : String)
    (m : List (String × FieldError α))
    (h : (m.any fun p => p.1 == k) = false) :
    k ∉ m.map Prod.fst := by
  intro hmem
  obtain ⟨p, hp, hpk⟩ := List.mem_map.mp hmem
  have : (m.any fun p => p.1 == k) = true :=
    List.any_eq_true.mpr ⟨p, hp, beq_iff_eq.mpr hpk⟩
  rw [h] at this
  exact absurd this (by decide)

/-- Upserting preserves duplicate-freedom of the key list. -/
theorem nodup_keys_upsert {α : Type}
    (m : List (String × FieldError α)) (k : String) (v : FieldError α)
    (h : (m.map Prod.fst).Nodup) :
    ((upsert m k v).map Prod.fst).Nodup := by
  rw [keys_upsert]
  by_cases hany : (m.any fun p => p.1 == k) = true
  · rw [if_pos hany]
    exact h
  · rw [if_neg hany]
    rw [List.nodup_append]
    refine ⟨h, List.nodup_singleton k, ?_⟩
    intro a ha hb
    rw [List.mem_singleton.mp hb] at ha
    exact not_mem_keys_of_any_eq_false k m
      (Bool.eq_false_iff.mpr hany) ha

/-- Upserting can only grow the key set. -/
theorem mem_keys_upsert_of_mem {α : Type}
    (m : List (String × FieldError α)) (k : String) (v : FieldError α)
    (f : String) (h : f ∈ m.map Prod.fst) :
    f ∈ (upsert m k v).map Prod.fst := by
  rw [keys_upsert]
  by_cases hany : (m.any fun p => p.1 == k) = true
  · rw [if_pos hany]; exact h
  · rw [if_neg hany]; exact List.mem_append_left _ h

/-- The upserted key is in the key set afterwards. -/
theorem mem_keys_upsert_self {α : Type}
    (m : List (String × FieldError α)) (k : String) (v : FieldError α) :
    k ∈ (upsert m k v).map Prod.fst := by
  rw [keys_upsert]
  by_cases hany : (m.any fun p => p.1 == k) = true
  · rw [if_pos hany]
    obtain ⟨p, hp, hpk⟩ := List.any_eq_true.mp hany
    exact List.mem_map.mpr ⟨p, hp, beq_iff_eq.mp hpk⟩
  · rw [if_neg hany]
    exact List.mem_append_right _ (List.mem_singleton_self k)

/-- Duplicate-freedom of the key list is preserved along the whole
error-building fold. -/
theorem nodup_keys_foldl_upsert {α : Type} (src : List (String × α))
    (issues : List ZodIssue) (m : List (String × FieldError α))
    (h : (m.map Prod.fst).Nodup) :
    ((issues.foldl
      (fun acc i => upsert acc (issueField i) (mkFieldError i src))
      m).map Prod.fst).Nodup := by
  induction issues generalizing m with
  | nil => exact h
  | cons i rest ih => exact ih _ (nodup_keys_upsert _ _ _ h)

/-- Keys survive the whole error-building fold. -/
theorem mem_keys_foldl_upsert_of_mem {α : Type}
    (src : List (String × α)) (issues : List ZodIssue)
    (m : List (String × FieldError α)) (f : String)
    (h : f ∈ m.map Prod.fst) :
    f ∈ (issues.foldl
      (fun acc i => upsert acc (issueField i) (mkFieldError i src))
      m).map Prod.fst := by
  induction issues generalizing m with
  | nil => exact h
  | cons i rest ih => exact ih _ (mem_keys_upsert_of_mem _ _ _ _ h)

/-- Every processed issue leaves its top-level field in the key list. -/
theorem issueField_mem_keys_foldl {α : Type} (src : List (String × α))
    (issues : List ZodIssue) (m : List (String × FieldError α))
    (i : ZodIssue) (hi : i ∈ issues) :
    issueField i ∈ (issues.foldl
      (fun acc j => upsert acc (issueField j) (mkFieldError j src))
      m).map Prod.fst := by
  induction issues generalizing m with
  | nil => exact absurd hi (List.not_mem_nil i)
  | cons j rest ih =>
    rcases List.mem_cons.mp hi with he | ht
    · subst he
      exact mem_keys_foldl_upsert_of_mem src rest _ _
        (mem_keys_upsert_self m _ _)
    · exact ih (upsert m (issueField j) (mkFieldError j src)) ht

/-- Lookup through the whole error-building fold: the last processed
issue on a field wins; fields never issued fall back to the start map. -/
theorem lookup_foldl_upsert {α : Type} (src : List (String × α))
    (issues : List ZodIssue) (m : List (String × FieldError α))
    (f : String) :
    List.lookup f (issues.foldl
      (fun acc i => upsert acc (issueField i) (mkFieldError i src)) m)
      = ((issues.reverse.find? fun i => issueField i == f).map
          fun i => mkFieldError i src).or (List.lookup f m) := by
  induction issues generalizing m with
  | nil => simp [List.find?]
  | cons i rest ih =>
    rw [List.foldl_cons,
      ih (upsert m (issueField i) (mkFieldError i src)),
      lookup_upsert, List.reverse_cons, find?_append_or]
    cases hfind : List.find? (fun j => issueField j == f)
        rest.reverse with
    | some j => simp [Option.or]
    | none =>
      cases hp : issueField i == f with
      | true => simp [Option.or, List.find?, hp]
      | false => simp [Option.or, List.find?, hp]

/-- C10: the error map of formatZodError is keyed by the first segment
of each issue path — nested issues are reported under their top-level
field — with exactly one entry per field (duplicate-free keys, every
issued field present), and the entry of a field is the one built from
the last issue on that field, earlier ones being overwritten. -/
theorem formatZodError_top_level_keys_last_wins {α : Type}
    (issues : List ZodIssue) (source : List (String × α)) :
    (((formatZodError issues source).errors).map Prod.fst).Nodup ∧
    (∀ i ∈ issues,
      issueField i ∈ ((formatZodError issues source).errors).map
        Prod.fst) ∧
    ∀ f, List.lookup f (formatZodError issues source).errors
      = (issues.reverse.find? fun i => issueField i == f).map
          fun i => mkFieldError i source := by
  refine ⟨?_, ?_, ?_⟩
  · exact nodup_keys_foldl_upsert source issues [] List.nodup_nil
  · intro i hi
    exact issueField_mem_keys_foldl source issues [] i hi
  · intro f
    have h := lookup_foldl_upsert source issues [] f
    rw [show (formatZodError issues source).errors
        = buildErrors issues source from rfl]
    rw [buildErrors, h]
    simp [List.lookup, Option.or_none]

/-- First issue used by the C10 witness: a top-level issue on author. -/
def sampleIssueA : ZodIssue :=
  { path := ["author"]
    message := "Author is required"
    code := "invalid_type"
    minimum := none
    options := none }

/-- Second issue used by the C10 witness: a nested issue under author,
processed after the first. -/
def sampleIssueB : ZodIssue :=
  { path := ["author", "first"]
    message := "Author first name must be a string"
    code := "invalid_type"
    minimum := none
    options := none }

/-- Witness for C10: with two issues whose paths both start at author —
the second nested — the map holds a single author entry, the one built
from the last issue. -/
theorem formatZodError_top_level_keys_last_wins_witness :
    List.lookup "author"
      (formatZodError [sampleIssueA, sampleIssueB] sampleSource).errors
      = some (mkFieldError sampleIssueB sampleSource) := by
  have h := (formatZodError_top_level_keys_last_wins
    [sampleIssueA, sampleIssueB] sampleSource).2.2 "author"
  rw [h]
  decide
